import Mathlib

/-!
Shallow embedding of the digital-life-lessons server (Express + MongoDB).

Collections (users, lessons, favorites) are modelled as Lean lists of
structures; MongoDB's `findOne` is `List.find?`, `updateOne` updates the
first matching element, `deleteOne` removes the first matching element and
`insertOne` appends.  `mustObjectId` is modelled by passing route/body ids
as `Option Nat`: `none` stands for a string that fails ObjectId validation.
JavaScript truthiness on optional strings (`x || y`, `if (!x)`) is modelled
by `jsOr` / `jsTruthy` / `jsStr`, where both `undefined` (`none`) and the
empty string are falsy.  Timestamps (`new Date()`) are `Nat` parameters.
-/

/-! ## Generic single-document collection operations -/

/-- Mongo `updateOne`: apply `f` to the first element satisfying `p`. -/
def updateFirst (p : α → Bool) (f : α → α) : List α → List α
  | [] => []
  | x :: xs => if p x then f x :: xs else x :: updateFirst p f xs

/-- Mongo `deleteOne`: remove the first element satisfying `p`. -/
def deleteFirst (p : α → Bool) : List α → List α
  | [] => []
  | x :: xs => if p x then xs else x :: deleteFirst p xs

/-! ## JavaScript truthiness helpers -/

/-- JS `a || b` on optional strings: `undefined` and `""` are falsy. -/
def jsOr (a b : Option String) : Option String :=
  match a with
  | some v => if v = "" then b else some v
  | none => b

/-- JS truthiness of an optional string. -/
def jsTruthy (a : Option String) : Bool :=
  match a with
  | some v => v != ""
  | none => false

/-- JS `a || d` collapsed to a plain string default. -/
def jsStr (a : Option String) (d : String) : String :=
  match a with
  | some v => if v = "" then d else v
  | none => d

/-! ## Data model -/

/-- A document of the `users` collection.  Fields that some write paths
leave absent (payment upsert inserts no `name`/`role`) are `Option`s;
`isPremium` is read through JS `!!`, so an absent flag and `false`
coincide and a plain `Bool` is faithful. -/
structure User where
  email : String
  name : Option String
  photoURL : Option String
  role : Option String
  isPremium : Bool
  premiumSince : Option Nat
  lastTransactionId : Option String
  createdAt : Option Nat
  updatedAt : Option Nat
  deriving DecidableEq

/-- A document of the `lessons` collection, with the exact field set
written by `createLesson`. -/
structure Lesson where
  id : Nat
  title : String
  shortDescription : String
  details : String
  category : String
  emotionalTone : String
  accessLevel : String
  visibility : String
  creatorEmail : String
  creatorName : String
  creatorPhotoURL : String
  savedCount : Int
  likesCount : Int
  likes : List String
  createdAt : Nat
  updatedAt : Nat
  isDeleted : Bool
  isFeatured : Bool
  isReviewed : Bool
  deriving DecidableEq

/-- A document of the `favorites` collection. -/
structure Favorite where
  id : Nat
  lessonId : Nat
  userEmail : String
  createdAt : Nat
  deriving DecidableEq

/-- The persisted state touched by the claims under study. -/
structure DB where
  users : List User
  lessons : List Lesson
  favorites : List Favorite
  deriving DecidableEq

/-! ## favorites.controller.js -/

/-- Response of `addFavorite`. -/
inductive AddFavResp where
  | invalidId
  | duplicate
  | inserted (insertedId : Nat)
  deriving DecidableEq

/-- HTTP status of an `addFavorite` response. -/
def AddFavResp.status : AddFavResp → Nat
  | .invalidId => 400
  | .duplicate => 400
  | .inserted _ => 200

/-- `addFavorite` (favorites.controller.js): validates the body's
`lessonId`, rejects a duplicate `(lessonId, userEmail)` pair, inserts the
favorite document and increments `savedCount` on the first lesson whose
`_id` matches — without checking that such a lesson exists. -/
def addFavorite (db : DB) (lessonIdParam : Option Nat) (email : String)
    (newFavId : Nat) (now : Nat) : AddFavResp × DB :=
  match lessonIdParam with
  | none => (.invalidId, db)
  | some lid =>
    match db.favorites.find? (fun f => f.lessonId == lid && f.userEmail == email) with
    | some _ => (.duplicate, db)
    | none =>
      let favDoc : Favorite := { id := newFavId, lessonId := lid, userEmail := email, createdAt := now }
      let favorites := db.favorites ++ [favDoc]
      let lessons := updateFirst (fun l => l.id == lid)
        (fun l => { l with savedCount := l.savedCount + 1 }) db.lessons
      (.inserted newFavId, { db with favorites := favorites, lessons := lessons })

/-- Response of `removeFavorite`. -/
inductive RemoveFavResp where
  | invalidId
  | forbidden
  | deleted (deletedCount : Nat)
  deriving DecidableEq

/-- HTTP status of a `removeFavorite` response. -/
def RemoveFavResp.status : RemoveFavResp → Nat
  | .invalidId => 400
  | .forbidden => 403
  | .deleted _ => 200

/-- `removeFavorite` (favorites.controller.js): looks the favorite up by
`_id`; `if (!fav || fav.userEmail !== email)` both the absent case and the
wrong-owner case answer 403 `forbidden`; otherwise deletes the favorite
and decrements `savedCount` on the referenced lesson guarded by
`savedCount: \x7b $gt: 0 \x7d`. -/
def removeFavorite (db : DB) (idParam : Option Nat) (email : String) :
    RemoveFavResp × DB :=
  match idParam with
  | none => (.invalidId, db)
  | some oid =>
    match db.favorites.find? (fun f => f.id == oid) with
    | none => (.forbidden, db)
    | some fav =>
      if fav.userEmail ≠ email then (.forbidden, db)
      else
        let favorites := deleteFirst (fun f => f.id == oid) db.favorites
        let lessons := updateFirst
          (fun l => l.id == fav.lessonId && decide (0 < l.savedCount))
          (fun l => { l with savedCount := l.savedCount - 1 }) db.lessons
        (.deleted 1, { db with favorites := favorites, lessons := lessons })

/-! ## lessons.controller.js: create, soft delete -/

/-- Request body of `createLesson`; absent keys are `none`. -/
structure LessonBody where
  title : Option String
  shortDescription : Option String
  details : Option String
  category : Option String
  emotionalTone : Option String
  accessLevel : Option String
  visibility : Option String
  creatorName : Option String
  creatorPhotoURL : Option String
  deriving DecidableEq

/-- Response of `createLesson`. -/
inductive CreateResp where
  | invalidInput
  | inserted (insertedId : Nat)
  deriving DecidableEq

/-- HTTP status of a `createLesson` response. -/
def CreateResp.status : CreateResp → Nat
  | .invalidInput => 400
  | .inserted _ => 200

/-- `createLesson` (lessons.controller.js): requires truthy `title` and
`shortDescription`, applies the documented defaults, forces `creatorEmail`
from the verified principal and initializes counters to zero and flags to
false. -/
def createLesson (db : DB) (body : LessonBody) (creatorEmail : String)
    (now : Nat) (newId : Nat) : CreateResp × DB :=
  if !jsTruthy body.title || !jsTruthy body.shortDescription then (.invalidInput, db)
  else
    let user := db.users.find? (fun u => u.email == creatorEmail)
    let doc : Lesson := {
      id := newId
      title := jsStr body.title ""
      shortDescription := jsStr body.shortDescription ""
      details := jsStr body.details ""
      category := jsStr body.category "Self-Growth"
      emotionalTone := jsStr body.emotionalTone "Reflective"
      accessLevel := jsStr body.accessLevel "free"
      visibility := jsStr body.visibility "public"
      creatorEmail := creatorEmail
      creatorName := jsStr (jsOr body.creatorName (user.bind User.name)) ""
      creatorPhotoURL := jsStr (jsOr body.creatorPhotoURL (user.bind User.photoURL)) ""
      savedCount := 0
      likesCount := 0
      likes := []
      createdAt := now
      updatedAt := now
      isDeleted := false
      isFeatured := false
      isReviewed := false }
    (.inserted newId, { db with lessons := db.lessons ++ [doc] })

/-- Response of the two soft-delete handlers. -/
inductive DeleteResp where
  | invalidId
  | notFound
  | forbidden
  | ok (matchedCount : Nat)
  deriving DecidableEq

/-- HTTP status of a soft-delete response. -/
def DeleteResp.status : DeleteResp → Nat
  | .invalidId => 400
  | .notFound => 404
  | .forbidden => 403
  | .ok _ => 200

/-- `deleteMyLesson` (lessons.controller.js): 404 when the lesson is
absent or already soft-deleted, 403 unless the caller is the creator,
otherwise `$set` of `isDeleted` and `updatedAt`. -/
def deleteMyLesson (db : DB) (idParam : Option Nat) (email : String) (now : Nat) :
    DeleteResp × DB :=
  match idParam with
  | none => (.invalidId, db)
  | some oid =>
    match db.lessons.find? (fun l => l.id == oid) with
    | none => (.notFound, db)
    | some lesson =>
      if lesson.isDeleted then (.notFound, db)
      else if lesson.creatorEmail ≠ email then (.forbidden, db)
      else
        let lessons := updateFirst (fun l => l.id == oid)
          (fun l => { l with isDeleted := true, updatedAt := now }) db.lessons
        (.ok 1, { db with lessons := lessons })

/-- `adminDeleteLesson` (lessons.controller.js): applies the same `$set`
unconditionally — no existence or already-deleted check — and sends the
raw update result (matched count) with status 200. -/
def adminDeleteLesson (db : DB) (idParam : Option Nat) (now : Nat) :
    DeleteResp × DB :=
  match idParam with
  | none => (.invalidId, db)
  | some oid =>
    let lessons := updateFirst (fun l => l.id == oid)
      (fun l => { l with isDeleted := true, updatedAt := now }) db.lessons
    (.ok (if (db.lessons.find? (fun l => l.id == oid)).isSome then 1 else 0),
      { db with lessons := lessons })

/-! ## lessons.controller.js: public listings -/

/-- Characters of `s.trim()`. -/
def trimChars (s : String) : List Char :=
  ((s.data.dropWhile Char.isWhitespace).reverse.dropWhile Char.isWhitespace).reverse

/-- Is `pat` a contiguous prefix of `l`? -/
def prefixMatch : List Char → List Char → Bool
  | [], _ => true
  | _ :: _, [] => false
  | a :: as, b :: bs => a == b && prefixMatch as bs

/-- Is `pat` a contiguous sublist of `l`? -/
def subListMatch (pat : List Char) : List Char → Bool
  | [] => prefixMatch pat []
  | c :: cs => prefixMatch pat (c :: cs) || subListMatch pat cs

/-- Case-insensitive substring test: the model of
`$regex: pat, $options: "i"` for the plain-text patterns this route
receives. -/
def containsCI (pat : List Char) (s : String) : Bool :=
  subListMatch (pat.map Char.toLower) (s.data.map Char.toLower)

/-- Query parameters of `GET /lessons/public`; `page`/`limit` carry the
result of JS `parseInt` (`none` for NaN). -/
structure PublicQuery where
  search : String
  category : String
  tone : String
  sort : String
  page : Option Int
  limit : Option Int
  deriving DecidableEq

/-- The filter document built by `publicLessons`: base
`visibility: "public", isDeleted: \x7b $ne: true \x7d`, optional equality
filters, optional `$or` of title/shortDescription regex tests. -/
def publicFilter (q : PublicQuery) (l : Lesson) : Bool :=
  l.visibility == "public" && !l.isDeleted
    && (q.category == "" || l.category == q.category)
    && (q.tone == "" || l.emotionalTone == q.tone)
    && (trimChars q.search == [] ||
         containsCI (trimChars q.search) l.title ||
         containsCI (trimChars q.search) l.shortDescription)

/-- Insert into a list sorted by `le`. -/
def insertBy (le : α → α → Bool) (a : α) : List α → List α
  | [] => [a]
  | b :: bs => if le a b then a :: b :: bs else b :: insertBy le a bs

/-- Insertion sort: the model of a Mongo `sort` cursor (the claims under
study depend only on the result being a permutation of its input). -/
def sortBy (le : α → α → Bool) : List α → List α
  | [] => []
  | a :: as => insertBy le a (sortBy le as)

/-- Sort key `createdAt: -1`. -/
def byNewest (a b : Lesson) : Bool := decide (b.createdAt ≤ a.createdAt)

/-- Sort key `savedCount: -1, createdAt: -1`. -/
def bySavedThenNewest (a b : Lesson) : Bool :=
  decide (b.savedCount < a.savedCount) ||
    (a.savedCount == b.savedCount && decide (b.createdAt ≤ a.createdAt))

/-- Sort key `savedCount: -1`. -/
def bySavedOnly (a b : Lesson) : Bool := decide (b.savedCount ≤ a.savedCount)

/-- Response of `publicLessons`: one page plus the pagination block. -/
structure PublicResult where
  lessons : List Lesson
  total : Nat
  page : Nat
  limit : Nat
  totalPages : Nat
  deriving DecidableEq

/-- `publicLessons` (lessons.controller.js): clamps `page ≥ 1` and
`1 ≤ limit ≤ 50`, filters, sorts by the requested order, slices the page
and reports the pagination totals. -/
def publicLessons (db : DB) (q : PublicQuery) : PublicResult :=
  let pageNum : Int := max 1 (q.page.getD 1)
  let limitNum : Int := min 50 (max 1 (q.limit.getD 9))
  let skip : Nat := ((pageNum - 1) * limitNum).toNat
  let filtered := db.lessons.filter (publicFilter q)
  let sorted := if q.sort == "mostSaved" then sortBy bySavedThenNewest filtered
                else sortBy byNewest filtered
  { lessons := (sorted.drop skip).take limitNum.toNat
    total := filtered.length
    page := pageNum.toNat
    limit := limitNum.toNat
    totalPages := (filtered.length + limitNum.toNat - 1) / limitNum.toNat }

/-- `featuredLessons` (lessons.controller.js): public, non-deleted,
featured, newest first, limit 6. -/
def featuredLessons (db : DB) : List Lesson :=
  (sortBy byNewest (db.lessons.filter
    (fun l => l.visibility == "public" && !l.isDeleted && l.isFeatured))).take 6

/-- `mostSavedLessons` (lessons.controller.js): public, non-deleted,
most saved first, limit 6. -/
def mostSavedLessons (db : DB) : List Lesson :=
  (sortBy bySavedOnly (db.lessons.filter
    (fun l => l.visibility == "public" && !l.isDeleted))).take 6

/-! ## middleware/lessonAccess.js and lesson detail -/

/-- `getIsPremium` (middleware/lessonAccess.js): false for a falsy email,
else `!!u?.isPremium` of the user record found by email. -/
def getIsPremium (users : List User) (email : String) : Bool :=
  if email = "" then false
  else
    match users.find? (fun u => u.email == email) with
    | some u => u.isPremium
    | none => false

/-- Response of `lessonDetails`. -/
inductive DetailResp where
  | invalidId
  | notFound
  | forbidden
  | found (l : Lesson)
  deriving DecidableEq

/-- HTTP status of a `lessonDetails` response. -/
def DetailResp.status : DetailResp → Nat
  | .invalidId => 400
  | .notFound => 404
  | .forbidden => 403
  | .found _ => 200

/-- `lessonDetails` (lessons.controller.js): fetches by id excluding
soft-deleted; on `accessLevel = "premium"` requires the caller to be the
creator or premium, else 403; otherwise returns the lesson. -/
def lessonDetails (db : DB) (idParam : Option Nat) (email : String) : DetailResp :=
  match idParam with
  | none => .invalidId
  | some oid =>
    match db.lessons.find? (fun l => l.id == oid && !l.isDeleted) with
    | none => .notFound
    | some lesson =>
      if lesson.accessLevel == "premium" then
        if !(getIsPremium db.users email) && !(lesson.creatorEmail == email) then
          .forbidden
        else .found lesson
      else .found lesson

/-! ## lessons.controller.js: toggle like -/

/-- Response of `toggleLike`. -/
inductive LikeResp where
  | invalidId
  | notFound
  | ok (liked : Bool) (likesCount : Int)
  deriving DecidableEq

/-- HTTP status of a `toggleLike` response. -/
def LikeResp.status : LikeResp → Nat
  | .invalidId => 400
  | .notFound => 404
  | .ok _ _ => 200

/-- The `$pull: \x7b likes: userId \x7d, $inc: \x7b likesCount: -1 \x7d`
update document of `toggleLike`. -/
def likePull (userId : String) (l : Lesson) : Lesson :=
  { l with likes := l.likes.filter (fun e => e != userId),
           likesCount := l.likesCount - 1 }

/-- The `$addToSet: \x7b likes: userId \x7d, $inc: \x7b likesCount: 1 \x7d`
update document of `toggleLike`. -/
def likeAdd (userId : String) (l : Lesson) : Lesson :=
  { l with likes := if l.likes.contains userId then l.likes
                    else l.likes ++ [userId],
           likesCount := l.likesCount + 1 }

/-- `toggleLike` (lessons.controller.js): `$pull` + `$inc -1` when the
caller's email is in `likes`, else `$addToSet` + `$inc +1`; the reported
count is read back from the store after the write. -/
def toggleLike (db : DB) (idParam : Option Nat) (userId : String) :
    LikeResp × DB :=
  match idParam with
  | none => (.invalidId, db)
  | some oid =>
    match db.lessons.find? (fun l => l.id == oid && !l.isDeleted) with
    | none => (.notFound, db)
    | some lesson =>
      let hasLiked := lesson.likes.contains userId
      let lessons :=
        if hasLiked then
          updateFirst (fun l => l.id == oid) (likePull userId) db.lessons
        else
          updateFirst (fun l => l.id == oid) (likeAdd userId) db.lessons
      let likesCount :=
        match lessons.find? (fun l => l.id == oid) with
        | some u => u.likesCount
        | none => 0
      (.ok (!hasLiked) likesCount, { db with lessons := lessons })

/-! ## lessons.controller.js: updateLesson

The update path is modelled at Mongo document granularity (a key-indexed
field map) because its behaviour — building a `$set` from an allow-list —
is about which keys can appear in the update document at all. -/

/-- A lesson document as the update path sees it: an `_id` plus a map
from field names to (optionally present) values. -/
structure LessonDoc where
  id : Nat
  fields : String → Option String

/-- The `allowedFields` array of `updateLesson`. -/
def allowedFields : List String :=
  ["title", "shortDescription", "details", "category", "emotionalTone",
   "accessLevel", "visibility"]

/-- The `$set` document built by `updateLesson`: `updatedAt` plus every
allow-listed field the body defines. -/
def buildSet (body : List (String × String)) (now : String) :
    List (String × String) :=
  ("updatedAt", now) :: allowedFields.filterMap (fun f =>
    match body.lookup f with
    | some v => some (f, v)
    | none => none)

/-- Apply a `$set` document to a field map. -/
def applySet (fields : String → Option String) (s : List (String × String)) :
    String → Option String :=
  fun k =>
    match s.lookup k with
    | some v => some v
    | none => fields k

/-- Response of `updateLesson`. -/
inductive UpdateResp where
  | invalidId
  | ok (matchedCount : Nat)
  deriving DecidableEq

/-- HTTP status of an `updateLesson` response. -/
def UpdateResp.status : UpdateResp → Nat
  | .invalidId => 400
  | .ok _ => 200

/-- `updateLesson` (lessons.controller.js): builds the allow-listed `$set`
and applies it to the first document whose `_id` matches. -/
def updateLesson (docs : List LessonDoc) (idParam : Option Nat)
    (body : List (String × String)) (now : String) :
    UpdateResp × List LessonDoc :=
  match idParam with
  | none => (.invalidId, docs)
  | some oid =>
    let updated := updateFirst (fun d => d.id == oid)
      (fun d => { d with fields := applySet d.fields (buildSet body now) }) docs
    (.ok (if (docs.find? (fun d => d.id == oid)).isSome then 1 else 0), updated)

/-! ## payments.controller.js -/

/-- The payment provider's view of a checkout session, as
`stripe.checkout.sessions.retrieve` returns it. -/
structure Session where
  payment_status : String
  customer_email : Option String
  metadata_email : Option String
  payment_intent : String
  deriving DecidableEq

/-- Response of `paymentSuccess`. -/
inductive PayResp where
  | missingSession
  | success (email : String) (transactionId : String)
  | unpaid (paymentStatus : String)
  deriving DecidableEq

/-- HTTP status of a `paymentSuccess` response. -/
def PayResp.status : PayResp → Nat
  | .missingSession => 400
  | .success _ _ => 200
  | .unpaid _ => 200

/-- The premium upsert of `paymentSuccess`: `updateOne` keyed by email
with `upsert: true`, `$set` of the premium fields and `$setOnInsert` of
`createdAt`. -/
def premiumUpsert (users : List User) (e : String) (now : Nat) (tid : String) :
    List User :=
  if (users.find? (fun u => u.email == e)).isSome then
    updateFirst (fun u => u.email == e)
      (fun u => { u with email := e, isPremium := true, premiumSince := some now,
                         lastTransactionId := some tid }) users
  else
    users ++ [{ email := e, name := none, photoURL := none, role := none,
                isPremium := true, premiumSince := some now,
                lastTransactionId := some tid, createdAt := some now,
                updatedAt := none }]

/-- `paymentSuccess` (payments.controller.js): resolves the email as
`session.customer_email || session.metadata?.email`; when the session is
`"paid"` and the email truthy, runs the premium upsert and reports
success; otherwise reports the unpaid status without touching the users
collection.  The `sessionParam` is `none` when no `session_id` was given. -/
def paymentSuccess (users : List User) (sessionParam : Option Session)
    (now : Nat) : PayResp × List User :=
  match sessionParam with
  | none => (.missingSession, users)
  | some sess =>
    match jsOr sess.customer_email sess.metadata_email with
    | some e =>
      if sess.payment_status == "paid" && e != "" then
        (.success e sess.payment_intent, premiumUpsert users e now sess.payment_intent)
      else (.unpaid sess.payment_status, users)
    | none => (.unpaid sess.payment_status, users)

/-! ## users route: public profile fetch -/

/-- Response of `getUserByEmail`: the profile or the literal `{}`. -/
inductive ProfileResp where
  | profile (u : User)
  | emptyObject
  deriving DecidableEq

/-- HTTP status of a `getUserByEmail` response. -/
def ProfileResp.status : ProfileResp → Nat
  | .profile _ => 200
  | .emptyObject => 200

/-- `getUserByEmail` (users controller): `res.send(user || \x7b\x7d)` —
always status 200. -/
def getUserByEmail (users : List User) (email : String) : ProfileResp :=
  match users.find? (fun u => u.email == email) with
  | some u => .profile u
  | none => .emptyObject

/-! ## Concrete sample state used by the witness instances -/

/-- A premium (non-admin) user. -/
def userP : User :=
  { email := "p@x.com", name := some "P", photoURL := none, role := some "user",
    isPremium := true, premiumSince := some 5, lastTransactionId := none,
    createdAt := some 1, updatedAt := some 1 }

/-- A free, public lesson owned by `a@x.com`. -/
def lessonFree : Lesson :=
  { id := 1, title := "Patience", shortDescription := "Wait well", details := "",
    category := "Self-Growth", emotionalTone := "Reflective", accessLevel := "free",
    visibility := "public", creatorEmail := "a@x.com", creatorName := "A",
    creatorPhotoURL := "", savedCount := 2, likesCount := 0, likes := [],
    createdAt := 10, updatedAt := 10, isDeleted := false, isFeatured := false,
    isReviewed := false }

/-- A premium-gated public lesson owned by `a@x.com`. -/
def lessonPremium : Lesson :=
  { lessonFree with id := 2, title := "Deep focus", accessLevel := "premium" }

/-- A private lesson. -/
def lessonPrivate : Lesson :=
  { lessonFree with id := 3, title := "Hidden", visibility := "private" }

/-- A soft-deleted public lesson. -/
def lessonGone : Lesson :=
  { lessonFree with id := 4, title := "Old", isDeleted := true }

/-- A favorite of `u@x.com` referencing `lessonFree`. -/
def favA : Favorite := { id := 7, lessonId := 1, userEmail := "u@x.com", createdAt := 3 }

/-- The sample database. -/
def dbMain : DB :=
  { users := [userP], lessons := [lessonFree, lessonPremium, lessonPrivate, lessonGone],
    favorites := [favA] }

/-- An entirely empty database. -/
def dbEmpty : DB := { users := [], lessons := [], favorites := [] }

/-- A default `GET /lessons/public` query. -/
def qDefault : PublicQuery :=
  { search := "", category := "", tone := "", sort := "newest",
    page := some 1, limit := some 9 }

/-- A paid checkout session for `a@b.com`. -/
def sessPaid : Session :=
  { payment_status := "paid", customer_email := some "a@b.com",
    metadata_email := none, payment_intent := "pi_1" }

/-- A lesson document for the update path, seen as a field map. -/
def docW : LessonDoc :=
  { id := 1,
    fields := fun k =>
      if k = "title" then some "Patience"
      else if k = "creatorEmail" then some "a@x.com"
      else none }

/-- An update body that tries to overwrite `creatorEmail`. -/
def bodyW : List (String × String) :=
  [("title", "New title"), ("creatorEmail", "evil@x.com")]

/-! ## List lemmas about the collection operations -/

theorem find?_append_left_none {p : α → Bool} {l₁ : List α} (l₂ : List α)
    (h : ∀ y ∈ l₁, p y = false) : (l₁ ++ l₂).find? p = l₂.find? p := by
  induction l₁ with
  | nil => rfl
  | cons x xs ih =>
      simp only [List.cons_append, List.find?_cons]
      rw [h x (by simp)]
      exact ih (fun y hy => h y (by simp [hy]))

theorem updateFirst_append {p : α → Bool} {f : α → α} {l₁ : List α} (l₂ : List α)
    (h : ∀ y ∈ l₁, p y = false) :
    updateFirst p f (l₁ ++ l₂) = l₁ ++ updateFirst p f l₂ := by
  induction l₁ with
  | nil => rfl
  | cons x xs ih =>
      have hx : p x = false := h x (by simp)
      simp [updateFirst, hx, ih (fun y hy => h y (by simp [hy]))]

theorem deleteFirst_append {p : α → Bool} {l₁ : List α} (l₂ : List α)
    (h : ∀ y ∈ l₁, p y = false) :
    deleteFirst p (l₁ ++ l₂) = l₁ ++ deleteFirst p l₂ := by
  induction l₁ with
  | nil => rfl
  | cons x xs ih =>
      have hx : p x = false := h x (by simp)
      simp [deleteFirst, hx, ih (fun y hy => h y (by simp [hy]))]

theorem find?_decomp {p : α → Bool} {l : List α} {x : α}
    (h : l.find? p = some x) :
    ∃ l₁ l₂, l = l₁ ++ x :: l₂ ∧ ∀ y ∈ l₁, p y = false := by
  induction l with
  | nil => simp at h
  | cons a as ih =>
      by_cases hp : p a = true
      · refine ⟨[], as, ?_, by simp⟩
        simp [List.find?_cons, hp] at h
        simp [h]
      · simp only [List.find?_cons] at h
        rw [Bool.eq_false_iff.mpr hp] at h
        rcases ih h with ⟨l₁, l₂, heq, hall⟩
        refine ⟨a :: l₁, l₂, by simp [heq], ?_⟩
        intro y hy
        rcases List.mem_cons.mp hy with hy | hy
        · simpa [hy] using Bool.eq_false_iff.mpr hp
        · exact hall y hy

theorem updateFirst_of_find?_none {p : α → Bool} {f : α → α} {l : List α}
    (h : l.find? p = none) : updateFirst p f l = l := by
  induction l with
  | nil => rfl
  | cons a as ih =>
      simp only [List.find?_cons] at h
      by_cases hp : p a = true
      · simp [hp] at h
      · rw [Bool.eq_false_iff.mpr hp] at h
        simp [updateFirst, Bool.eq_false_iff.mpr hp, ih h]

theorem find?_updateFirst_of_pres {p : α → Bool} {f : α → α} {l : List α} {x : α}
    (h : l.find? p = some x) (hf : p (f x) = true) :
    (updateFirst p f l).find? p = some (f x) := by
  rcases find?_decomp h with ⟨l₁, l₂, heq, hall⟩
  have hx : p x = true := List.find?_some (heq ▸ h)
  subst heq
  rw [updateFirst_append _ hall]
  rw [find?_append_left_none _ hall]
  simp only [updateFirst, hx, if_true]
  simp [List.find?_cons, hf]

theorem updateFirst_eq_of_find? {p : α → Bool} {f : α → α} {l l₁ l₂ : List α} {x : α}
    (heq : l = l₁ ++ x :: l₂) (hall : ∀ y ∈ l₁, p y = false) (hx : p x = true) :
    updateFirst p f l = l₁ ++ f x :: l₂ := by
  subst heq
  rw [updateFirst_append _ hall]
  simp [updateFirst, hx]

theorem find?_strengthen {p q : α → Bool} {l : List α} {x : α}
    (h : l.find? p = some x) (hqx : q x = true) (hqp : ∀ y, q y = true → p y = true) :
    l.find? q = some x := by
  rcases find?_decomp h with ⟨l₁, l₂, heq, hall⟩
  subst heq
  have hq₁ : ∀ y ∈ l₁, q y = false := by
    intro y hy
    cases hqy : q y with
    | false => rfl
    | true => exact absurd (hqp y hqy) (by simp [hall y hy])
  rw [find?_append_left_none _ hq₁]
  simp [List.find?_cons, hqx]

theorem mem_updateFirst {p : α → Bool} {f : α → α} {l : List α} {x : α}
    (h : x ∈ updateFirst p f l) : x ∈ l ∨ ∃ y ∈ l, p y = true ∧ x = f y := by
  induction l with
  | nil => simp [updateFirst] at h
  | cons a as ih =>
      simp only [updateFirst] at h
      by_cases hp : p a = true
      · rw [if_pos hp] at h
        rcases List.mem_cons.mp h with h | h
        · exact Or.inr ⟨a, by simp, hp, h⟩
        · exact Or.inl (by simp [h])
      · rw [if_neg hp] at h
        rcases List.mem_cons.mp h with h | h
        · exact Or.inl (by simp [h])
        · rcases ih h with h | ⟨y, hy, hpy, hxy⟩
          · exact Or.inl (by simp [h])
          · exact Or.inr ⟨y, by simp [hy], hpy, hxy⟩

theorem deleteFirst_length {p : α → Bool} {l : List α} {x : α}
    (h : l.find? p = some x) : (deleteFirst p l).length + 1 = l.length := by
  induction l with
  | nil => simp at h
  | cons a as ih =>
      simp only [List.find?_cons] at h
      by_cases hp : p a = true
      · simp [deleteFirst, hp]
      · rw [Bool.eq_false_iff.mpr hp] at h
        have hlen := ih h
        simp [deleteFirst, Bool.eq_false_iff.mpr hp]
        omega

theorem mem_deleteFirst {p : α → Bool} {l : List α} {x : α}
    (h : x ∈ deleteFirst p l) : x ∈ l := by
  induction l with
  | nil => simp [deleteFirst] at h
  | cons a as ih =>
      simp only [deleteFirst] at h
      by_cases hp : p a = true
      · rw [if_pos hp] at h; simp [h]
      · rw [if_neg hp] at h
        rcases List.mem_cons.mp h with h | h
        · simp [h]
        · simp [ih h]

theorem mem_insertBy (le : α → α → Bool) (a x : α) (l : List α)
    (h : x ∈ insertBy le a l) : x = a ∨ x ∈ l := by
  induction l with
  | nil => simpa [insertBy] using h
  | cons b bs ih =>
      simp only [insertBy] at h
      split at h
      · simpa using h
      · rcases List.mem_cons.mp h with h | h
        · right; simp [h]
        · rcases ih h with h | h
          · left; exact h
          · right; simp [h]

theorem mem_sortBy {le : α → α → Bool} {x : α} {l : List α}
    (h : x ∈ sortBy le l) : x ∈ l := by
  induction l with
  | nil => simp [sortBy] at h
  | cons a as ih =>
      simp only [sortBy] at h
      rcases mem_insertBy le a x _ h with h | h
      · simp [h]
      · simp [ih h]

/-! ## Claim C1: remove-favorite error behaviour -/

/-- Claim C1 counterexample: on a state with no favorite documents at all,
removing favorite id 1 answers 403 `forbidden` — not the NotFound (404)
the claim requires for an absent favorite. -/
theorem c1_absent_favorite_answers_403 :
    dbEmpty.favorites = [] ∧
    (removeFavorite dbEmpty (some 1) "u@x.com").1.status = 403 ∧
    (removeFavorite dbEmpty (some 1) "u@x.com").1.status ≠ 404 := by
  decide

/-- Claim C1 (amended): remove-favorite answers 403 Forbidden both when no
favorite with the given id exists and when the favorite's `userEmail`
differs from the caller's (the state is unchanged in both cases); only
when the favorite exists and belongs to the caller is it deleted. -/
theorem c1_remove_favorite_access (db : DB) (oid : Nat) (email : String) :
    (db.favorites.find? (fun f => f.id == oid) = none →
       removeFavorite db (some oid) email = (.forbidden, db)) ∧
    (∀ fav, db.favorites.find? (fun f => f.id == oid) = some fav →
       fav.userEmail ≠ email →
       removeFavorite db (some oid) email = (.forbidden, db)) ∧
    (∀ fav, db.favorites.find? (fun f => f.id == oid) = some fav →
       fav.userEmail = email →
       (removeFavorite db (some oid) email).1 = .deleted 1 ∧
       ((removeFavorite db (some oid) email).2).favorites.length + 1
         = db.favorites.length ∧
       ∀ f ∈ ((removeFavorite db (some oid) email).2).favorites,
         f ∈ db.favorites) := by
  refine ⟨?_, ?_, ?_⟩
  · intro h
    simp [removeFavorite, h]
  · intro fav h hne
    simp only [removeFavorite, h]
    rw [if_pos hne]
  · intro fav h he
    simp only [removeFavorite, h]
    rw [if_neg (by simp [he])]
    exact ⟨rfl, deleteFirst_length h, fun f hf => mem_deleteFirst hf⟩

/-- Claim C1 witness: deleting favorite 7, owned by the caller `u@x.com`,
succeeds and removes exactly one document. -/
theorem c1_remove_favorite_access_witness :
    (removeFavorite dbMain (some 7) "u@x.com").1 = .deleted 1 ∧
    ((removeFavorite dbMain (some 7) "u@x.com").2).favorites.length + 1
      = dbMain.favorites.length := by
  have h := (c1_remove_favorite_access dbMain 7 "u@x.com").2.2 favA
    (by decide) (by decide)
  exact ⟨h.1, h.2.1⟩

/-! ## Claim C2: soft delete -/

/-- Claim C2 counterexample: the admin soft-delete of an absent lesson
answers 200 with the raw update result — not the NotFound (404) the claim
requires — leaving the state unchanged. -/
theorem c2_admin_delete_absent_answers_200 :
    dbEmpty.lessons = [] ∧
    (adminDeleteLesson dbEmpty (some 1) 7).1.status = 200 ∧
    (adminDeleteLesson dbEmpty (some 1) 7).1.status ≠ 404 ∧
    (adminDeleteLesson dbEmpty (some 1) 7).2 = dbEmpty := by
  decide

/-- Claim C2 (amended): the owner path behaves as claimed — 404 and no
state change when the lesson is absent or already soft-deleted, otherwise
`isDeleted := true` and a bumped `updatedAt` with every other field kept —
but the admin path applies the update unconditionally and always answers
200: absent lessons yield a success response (matched count 0) and an
already-deleted lesson is re-written (bumping `updatedAt`). -/
theorem c2_soft_delete_behavior (db : DB) (oid : Nat) (email : String) (now : Nat) :
    (db.lessons.find? (fun l => l.id == oid) = none →
       deleteMyLesson db (some oid) email now = (.notFound, db) ∧
       adminDeleteLesson db (some oid) now = (.ok 0, db)) ∧
    (∀ lesson, db.lessons.find? (fun l => l.id == oid) = some lesson →
       lesson.isDeleted = true →
       deleteMyLesson db (some oid) email now = (.notFound, db)) ∧
    (∀ lesson, db.lessons.find? (fun l => l.id == oid) = some lesson →
       lesson.isDeleted = false → lesson.creatorEmail = email →
       (deleteMyLesson db (some oid) email now).1 = .ok 1 ∧
       ((deleteMyLesson db (some oid) email now).2).lessons.find?
           (fun l => l.id == oid)
         = some { lesson with isDeleted := true, updatedAt := now }) ∧
    ((adminDeleteLesson db (some oid) now).1.status = 200) ∧
    (∀ lesson, db.lessons.find? (fun l => l.id == oid) = some lesson →
       ((adminDeleteLesson db (some oid) now).2).lessons.find?
           (fun l => l.id == oid)
         = some { lesson with isDeleted := true, updatedAt := now }) := by
  refine ⟨?_, ?_, ?_, ?_, ?_⟩
  · intro h
    constructor
    · simp [deleteMyLesson, h]
    · simp [adminDeleteLesson, h, updateFirst_of_find?_none h]
  · intro lesson h hdel
    simp [deleteMyLesson, h, hdel]
  · intro lesson h hdel he
    simp only [deleteMyLesson, h]
    rw [if_neg (by simp [hdel])]
    rw [if_neg (by simp [he])]
    refine ⟨rfl, ?_⟩
    have hp := List.find?_some h
    exact find?_updateFirst_of_pres h (by simpa using hp)
  · simp [adminDeleteLesson, DeleteResp.status]
  · intro lesson h
    simp only [adminDeleteLesson]
    have hp := List.find?_some h
    exact find?_updateFirst_of_pres h (by simpa using hp)

/-- Claim C2 witness: the creator soft-deletes lesson 1, getting a success
response, and the stored lesson now carries `isDeleted = true` with
`updatedAt` bumped and every other field unchanged. -/
theorem c2_soft_delete_behavior_witness :
    (deleteMyLesson dbMain (some 1) "a@x.com" 99).1 = .ok 1 ∧
    ((deleteMyLesson dbMain (some 1) "a@x.com" 99).2).lessons.find?
        (fun l => l.id == 1)
      = some { lessonFree with isDeleted := true, updatedAt := 99 } :=
  (c2_soft_delete_behavior dbMain 1 "a@x.com" 99).2.2.1 lessonFree
    (by decide) (by decide) (by decide)

/-! ## Claim C9: add-favorite does not check lesson existence -/

/-- Claim C9: with a well-formed `lessonId` and no duplicate favorite, the
insert succeeds even when no lesson with that id exists — the favorite is
appended and the `savedCount` increment matches no lesson document. -/
theorem c9_add_favorite_without_lesson (db : DB) (lid : Nat) (email : String)
    (nid now : Nat)
    (hdup : db.favorites.find?
        (fun f => f.lessonId == lid && f.userEmail == email) = none)
    (hlesson : db.lessons.find? (fun l => l.id == lid) = none) :
    (addFavorite db (some lid) email nid now).1 = .inserted nid ∧
    (addFavorite db (some lid) email nid now).2.favorites
      = db.favorites
          ++ [{ id := nid, lessonId := lid, userEmail := email, createdAt := now }] ∧
    (addFavorite db (some lid) email nid now).2.lessons = db.lessons := by
  refine ⟨by simp [addFavorite, hdup], by simp [addFavorite, hdup], ?_⟩
  simp only [addFavorite, hdup]
  exact updateFirst_of_find?_none hlesson

/-- Claim C9 witness: adding a favorite for the nonexistent lesson 5
reports success and leaves the lessons collection untouched. -/
theorem c9_add_favorite_without_lesson_witness :
    (addFavorite dbMain (some 5) "u2@x.com" 50 9).1 = .inserted 50 ∧
    (addFavorite dbMain (some 5) "u2@x.com" 50 9).2.lessons = dbMain.lessons := by
  have h := c9_add_favorite_without_lesson dbMain 5 "u2@x.com" 50 9
    (by decide) (by decide)
  exact ⟨h.1, h.2.2⟩

/-! ## Claim C10: public profile fetch never 404s -/

/-- Claim C10: `getUserByEmail` always answers 200; when no user document
matches the email it sends the empty object rather than a 404 error. -/
theorem c10_profile_fetch_never_404 (users : List User) (email : String) :
    (getUserByEmail users email).status = 200 ∧
    ((∀ u ∈ users, u.email ≠ email) →
       getUserByEmail users email = .emptyObject) := by
  constructor
  · unfold getUserByEmail
    cases h : users.find? (fun u => u.email == email) <;> simp [ProfileResp.status]
  · intro h
    have hn : users.find? (fun u => u.email == email) = none := by
      apply List.find?_eq_none.mpr
      intro u hu
      simpa using h u hu
    simp [getUserByEmail, hn]

/-- Claim C10 witness: fetching a profile from an empty users collection
answers 200 with the empty object. -/
theorem c10_profile_fetch_never_404_witness :
    (getUserByEmail [] "z@x.com").status = 200 ∧
    getUserByEmail [] "z@x.com" = .emptyObject := by
  have h := c10_profile_fetch_never_404 [] "z@x.com"
  exact ⟨h.1, h.2 (by simp)⟩

/-! ## Claim C3: payment success confirmation -/

theorem premiumUpsert_find? (users : List User) (e : String) (now : Nat)
    (tid : String) :
    ∃ u, (premiumUpsert users e now tid).find? (fun x => x.email == e) = some u ∧
      u.isPremium = true ∧ u.premiumSince = some now ∧
      u.lastTransactionId = some tid := by
  unfold premiumUpsert
  by_cases h : (users.find? (fun u => u.email == e)).isSome
  · rw [if_pos h]
    rcases Option.isSome_iff_exists.mp h with ⟨u, hu⟩
    exact ⟨_, find?_updateFirst_of_pres hu (by simp), rfl, rfl, rfl⟩
  · rw [if_neg h]
    have hn : users.find? (fun u => u.email == e) = none :=
      Option.not_isSome_iff_eq_none.mp h
    have hall : ∀ y ∈ users, (fun x : User => x.email == e) y = false := by
      intro y hy
      simpa using List.find?_eq_none.mp hn y hy
    rw [find?_append_left_none _ hall]
    refine ⟨{ email := e, name := none, photoURL := none, role := none,
              isPremium := true, premiumSince := some now,
              lastTransactionId := some tid, createdAt := some now,
              updatedAt := none }, ?_, rfl, rfl, rfl⟩
    simp [List.find?_cons]

/-- Claim C3: with a given session, the users collection receives the
premium upsert (isPremium true, premiumSince and the provider's
transaction id recorded, the user created if absent) exactly when the
session's payment status is "paid" and an email is resolvable from it
(`customer_email || metadata.email`, JS-truthy); in every other case the
response reports unpaid status and the users collection is unchanged; and
re-invoking with the same paid session leaves the user premium. -/
theorem c3_payment_success_upsert (users : List User) (sess : Session)
    (now later : Nat) :
    (∀ e, jsOr sess.customer_email sess.metadata_email = some e → e ≠ "" →
       sess.payment_status = "paid" →
       (paymentSuccess users (some sess) now).1
         = .success e sess.payment_intent ∧
       (∃ u, ((paymentSuccess users (some sess) now).2).find?
             (fun x => x.email == e) = some u ∧
          u.isPremium = true ∧ u.premiumSince = some now ∧
          u.lastTransactionId = some sess.payment_intent) ∧
       (∃ u, ((paymentSuccess ((paymentSuccess users (some sess) now).2)
                 (some sess) later).2).find? (fun x => x.email == e) = some u ∧
          u.isPremium = true)) ∧
    (¬(sess.payment_status = "paid" ∧
         jsTruthy (jsOr sess.customer_email sess.metadata_email) = true) →
       paymentSuccess users (some sess) now
         = (.unpaid sess.payment_status, users)) := by
  constructor
  · intro e hjs hne hpaid
    have hcond : (sess.payment_status == "paid" && e != "") = true := by
      simp [hpaid, hne]
    refine ⟨?_, ?_, ?_⟩
    · simp [paymentSuccess, hjs, hcond]
    · simp only [paymentSuccess, hjs, hcond, if_true]
      simpa using premiumUpsert_find? users e now sess.payment_intent
    · simp only [paymentSuccess, hjs, hcond, if_true]
      rcases premiumUpsert_find? (premiumUpsert users e now sess.payment_intent)
        e later sess.payment_intent with ⟨u, hu, hp, _, _⟩
      exact ⟨u, by simpa using hu, hp⟩
  · intro h
    simp only [paymentSuccess]
    cases hjs : jsOr sess.customer_email sess.metadata_email with
    | none => rfl
    | some e =>
        rw [hjs] at h
        have hb : (sess.payment_status == "paid" && e != "") = false := by
          cases hps : (sess.payment_status == "paid") with
          | false => simp
          | true =>
              cases hnee : (e != "") with
              | false => simp
              | true =>
                  exact absurd ⟨by simpa using hps, by simp [jsTruthy, hnee]⟩ h
        simp [hb]

/-- Claim C3 witness: confirming the paid session `sessPaid` against an
empty users collection reports success and creates `a@b.com` with
`isPremium = true`, `premiumSince` and the transaction id recorded. -/
theorem c3_payment_success_upsert_witness :
    (paymentSuccess [] (some sessPaid) 5).1 = .success "a@b.com" "pi_1" ∧
    ∃ u, ((paymentSuccess [] (some sessPaid) 5).2).find?
          (fun x => x.email == "a@b.com") = some u ∧
      u.isPremium = true ∧ u.premiumSince = some 5 ∧
      u.lastTransactionId = some "pi_1" := by
  have h := (c3_payment_success_upsert [] sessPaid 5 6).1 "a@b.com"
    (by decide) (by decide) (by decide)
  exact ⟨h.1, h.2.1⟩

/-! ## Claim C4: premium gate on lesson detail -/

/-- Claim C4: for an existing non-deleted lesson, a premium lesson is
returned exactly when the requester is the creator or their user record
is premium (else 403 Forbidden), and a non-premium lesson is returned
unconditionally. -/
theorem c4_lesson_detail_premium_gate (db : DB) (oid : Nat) (email : String)
    (lesson : Lesson)
    (h : db.lessons.find? (fun l => l.id == oid && !l.isDeleted) = some lesson) :
    (lesson.accessLevel = "premium" →
       (lessonDetails db (some oid) email = .found lesson ↔
          lesson.creatorEmail = email ∨ getIsPremium db.users email = true) ∧
       (¬(lesson.creatorEmail = email ∨ getIsPremium db.users email = true) →
          lessonDetails db (some oid) email = .forbidden)) ∧
    (lesson.accessLevel ≠ "premium" →
       lessonDetails db (some oid) email = .found lesson) := by
  constructor
  · intro hprem
    have hres : lessonDetails db (some oid) email =
        (if !(getIsPremium db.users email) && !(lesson.creatorEmail == email)
         then .forbidden else .found lesson) := by
      simp [lessonDetails, h, hprem]
    by_cases howner : lesson.creatorEmail = email
    · rw [hres]
      simp [howner]
    · by_cases hpr : getIsPremium db.users email = true
      · rw [hres]
        simp [howner, hpr]
      · rw [Bool.not_eq_true] at hpr
        rw [hres]
        simp [howner, hpr]
  · intro hnp
    have hb : (lesson.accessLevel == "premium") = false := by simpa using hnp
    simp [lessonDetails, h, hb]

/-- Claim C4 witness: the premium-gated lesson 2 is visible to the
premium user `p@x.com`, who is not its creator. -/
theorem c4_lesson_detail_premium_gate_witness :
    lessonDetails dbMain (some 2) "p@x.com" = .found lessonPremium := by
  have h := (c4_lesson_detail_premium_gate dbMain 2 "p@x.com" lessonPremium
    (by decide)).1 (by decide)
  exact h.1.mpr (Or.inr (by decide))

/-! ## Claim C5: private and deleted lessons never listed -/

/-- Claim C5: a lesson with `visibility = "private"` or `isDeleted = true`
never appears in the public, featured, or most-saved listing results. -/
theorem c5_private_or_deleted_excluded (db : DB) (q : PublicQuery) (l : Lesson)
    (h : l.visibility = "private" ∨ l.isDeleted = true) :
    l ∉ (publicLessons db q).lessons ∧
    l ∉ featuredLessons db ∧
    l ∉ mostSavedLessons db := by
  have hfail : (l.visibility == "public" && !l.isDeleted) = false := by
    rcases h with h | h
    · have hv : (l.visibility == "public") = false := by
        rw [h]
        decide
      simp [hv]
    · simp [h]
  refine ⟨?_, ?_, ?_⟩
  · intro hmem
    simp only [publicLessons] at hmem
    have h1 := List.mem_of_mem_take hmem
    have h2 := List.mem_of_mem_drop h1
    have h3 : l ∈ db.lessons.filter (publicFilter q) := by
      cases hs : (q.sort == "mostSaved") with
      | true =>
          rw [hs] at h2
          simp only [if_true] at h2
          exact mem_sortBy h2
      | false =>
          rw [hs] at h2
          simp only [Bool.false_eq_true, if_false] at h2
          exact mem_sortBy h2
    have hpf := (List.mem_filter.mp h3).2
    simp only [publicFilter, Bool.and_eq_true] at hpf
    have hbase : (l.visibility == "public" && !l.isDeleted) = true := by
      simp [hpf.1.1.1, hpf.1.1.2]
    rw [hfail] at hbase
    exact absurd hbase (by simp)
  · intro hmem
    have h1 := List.mem_of_mem_take hmem
    have h2 := mem_sortBy h1
    have hpf := (List.mem_filter.mp h2).2
    simp only [Bool.and_eq_true] at hpf
    have hbase : (l.visibility == "public" && !l.isDeleted) = true := by
      simp [hpf.1.1, hpf.1.2]
    rw [hfail] at hbase
    exact absurd hbase (by simp)
  · intro hmem
    have h1 := List.mem_of_mem_take hmem
    have h2 := mem_sortBy h1
    have hpf := (List.mem_filter.mp h2).2
    rw [hfail] at hpf
    exact absurd hpf (by simp)

/-- Claim C5 witness: the private lesson 3 appears in none of the three
listings over the sample state. -/
theorem c5_private_or_deleted_excluded_witness :
    lessonPrivate ∉ (publicLessons dbMain qDefault).lessons ∧
    lessonPrivate ∉ featuredLessons dbMain ∧
    lessonPrivate ∉ mostSavedLessons dbMain :=
  c5_private_or_deleted_excluded dbMain qDefault lessonPrivate
    (Or.inl (by decide))

/-! ## Claim C6: toggle like is an involution -/

theorem band_left {a b : Bool} (h : (a && b) = true) : a = true := by
  simp at h
  exact h.1

/-- Claim C6: on an existing non-deleted lesson, a single toggle adds the
caller's email and increments `likesCount` when the email was absent, and
removes it and decrements when present; two consecutive toggles restore
the likes set (as a set) and the stored `likesCount`, and the second
response reports the pre-toggle liked state with the original count. -/
theorem c6_toggle_like_involution (db : DB) (oid : Nat) (u : String)
    (lesson : Lesson)
    (hfind : db.lessons.find? (fun l => l.id == oid) = some lesson)
    (hdel : lesson.isDeleted = false) :
    (lesson.likes.contains u = false →
       (toggleLike db (some oid) u).1 = .ok true (lesson.likesCount + 1) ∧
       ((toggleLike db (some oid) u).2).lessons.find? (fun l => l.id == oid)
         = some { lesson with likes := lesson.likes ++ [u],
                              likesCount := lesson.likesCount + 1 }) ∧
    (lesson.likes.contains u = true →
       (toggleLike db (some oid) u).1 = .ok false (lesson.likesCount - 1) ∧
       ((toggleLike db (some oid) u).2).lessons.find? (fun l => l.id == oid)
         = some { lesson with likes := lesson.likes.filter (fun e => e != u),
                              likesCount := lesson.likesCount - 1 }) ∧
    ((toggleLike ((toggleLike db (some oid) u).2) (some oid) u).1
       = .ok (lesson.likes.contains u) lesson.likesCount) ∧
    (∀ l₂, ((toggleLike ((toggleLike db (some oid) u).2) (some oid) u).2).lessons.find?
         (fun l => l.id == oid) = some l₂ →
       l₂.likesCount = lesson.likesCount ∧
       ∀ x, x ∈ l₂.likes ↔ x ∈ lesson.likes) := by
  have hp : (lesson.id == oid) = true := by simpa using List.find?_some hfind
  have hq : db.lessons.find? (fun l => l.id == oid && !l.isDeleted) = some lesson := by
    refine find?_strengthen hfind ?_ ?_
    · simp [hp, hdel]
    · intro y hy
      exact band_left hy
  cases hc : lesson.likes.contains u with
  | false =>
      have hmem : u ∉ lesson.likes := by simpa using hc
      have hAddEq : likeAdd u lesson
          = { lesson with likes := lesson.likes ++ [u],
                          likesCount := lesson.likesCount + 1 } := by
        simp [likeAdd, hmem]
      have h1 : (updateFirst (fun l => l.id == oid) (likeAdd u) db.lessons).find?
          (fun l => l.id == oid) = some (likeAdd u lesson) :=
        find?_updateFirst_of_pres hfind (by simpa [likeAdd] using hp)
      have hfirst : toggleLike db (some oid) u
          = (.ok true (lesson.likesCount + 1),
             { db with lessons :=
                 updateFirst (fun l => l.id == oid) (likeAdd u) db.lessons }) := by
        simp [toggleLike, hq, hmem, h1, hAddEq]
      have hq2 : (updateFirst (fun l => l.id == oid) (likeAdd u) db.lessons).find?
          (fun l => l.id == oid && !l.isDeleted) = some (likeAdd u lesson) := by
        refine find?_strengthen h1 ?_ ?_
        · simp [likeAdd, hp, hdel]
        · intro y hy
          exact band_left hy
      have hc2 : u ∈ (likeAdd u lesson).likes := by
        simp [hAddEq]
      have h2 : (updateFirst (fun l => l.id == oid) (likePull u)
            (updateFirst (fun l => l.id == oid) (likeAdd u) db.lessons)).find?
          (fun l => l.id == oid) = some (likePull u (likeAdd u lesson)) :=
        find?_updateFirst_of_pres h1 (by simpa [likePull, likeAdd] using hp)
      have hPullCount : (likePull u (likeAdd u lesson)).likesCount
          = lesson.likesCount := by
        simp [likePull, likeAdd]
      have hPullLikes : ∀ x, x ∈ (likePull u (likeAdd u lesson)).likes ↔
          x ∈ lesson.likes := by
        intro x
        simp only [likePull, likeAdd, hc, Bool.false_eq_true, if_false,
          List.mem_filter, List.mem_append, List.mem_singleton, bne_iff_ne, ne_eq]
        constructor
        · rintro ⟨hx1 | rfl, hx2⟩
          · exact hx1
          · exact absurd rfl hx2
        · intro hx
          refine ⟨Or.inl hx, ?_⟩
          intro heq
          subst heq
          exact hmem hx
      refine ⟨?_, ?_, ?_, ?_⟩
      · intro _
        constructor
        · rw [hfirst]
        · rw [hfirst]
          exact hAddEq ▸ h1
      · intro hcc
        exact absurd hcc (by simp)
      · rw [hfirst]
        simp [toggleLike, hq2, hc2, h2, hPullCount]
      · intro l₂ hl₂
        rw [hfirst] at hl₂
        simp [toggleLike, hq2, hc2] at hl₂
        rw [h2] at hl₂
        obtain rfl := Option.some.inj hl₂
        exact ⟨hPullCount, hPullLikes⟩
  | true =>
      have hmem : u ∈ lesson.likes := by simpa using hc
      have h1 : (updateFirst (fun l => l.id == oid) (likePull u) db.lessons).find?
          (fun l => l.id == oid) = some (likePull u lesson) :=
        find?_updateFirst_of_pres hfind (by simpa [likePull] using hp)
      have hfirst : toggleLike db (some oid) u
          = (.ok false (lesson.likesCount - 1),
             { db with lessons :=
                 updateFirst (fun l => l.id == oid) (likePull u) db.lessons }) := by
        have hcnt : (likePull u lesson).likesCount = lesson.likesCount - 1 := rfl
        simp [toggleLike, hq, hmem, h1, hcnt]
      have hq2 : (updateFirst (fun l => l.id == oid) (likePull u) db.lessons).find?
          (fun l => l.id == oid && !l.isDeleted) = some (likePull u lesson) := by
        refine find?_strengthen h1 ?_ ?_
        · simp [likePull, hp, hdel]
        · intro y hy
          exact band_left hy
      have hc2 : u ∉ (likePull u lesson).likes := by
        simp [likePull]
      have h2 : (updateFirst (fun l => l.id == oid) (likeAdd u)
            (updateFirst (fun l => l.id == oid) (likePull u) db.lessons)).find?
          (fun l => l.id == oid) = some (likeAdd u (likePull u lesson)) :=
        find?_updateFirst_of_pres h1 (by simpa [likeAdd, likePull] using hp)
      have hcnt2 : (likeAdd u (likePull u lesson)).likesCount
          = lesson.likesCount := by
        simp [likeAdd, likePull]
      have hlikes2 : ∀ x, x ∈ (likeAdd u (likePull u lesson)).likes ↔
          x ∈ lesson.likes := by
        intro x
        have hfc : (lesson.likes.filter (fun e => e != u)).contains u = false := by
          simp
        simp only [likeAdd, likePull, hfc, Bool.false_eq_true, if_false,
          List.mem_append, List.mem_filter, List.mem_singleton, bne_iff_ne, ne_eq]
        constructor
        · rintro (⟨hx, _⟩ | rfl)
          · exact hx
          · exact hmem
        · intro hx
          by_cases hxu : x = u
          · exact Or.inr hxu
          · exact Or.inl ⟨hx, hxu⟩
      refine ⟨?_, ?_, ?_, ?_⟩
      · intro hcc
        exact absurd hcc (by simp)
      · intro _
        constructor
        · rw [hfirst]
        · rw [hfirst]
          exact h1
      · rw [hfirst]
        simp [toggleLike, hq2, hc2, h2, hcnt2]
      · intro l₂ hl₂
        rw [hfirst] at hl₂
        simp [toggleLike, hq2, hc2] at hl₂
        rw [h2] at hl₂
        obtain rfl := Option.some.inj hl₂
        exact ⟨hcnt2, hlikes2⟩

/-- Claim C6 witness: toggling lesson 1 twice as `u@x.com` reports the
original liked state (false) and the original count (0). -/
theorem c6_toggle_like_involution_witness :
    (toggleLike ((toggleLike dbMain (some 1) "u@x.com").2) (some 1) "u@x.com").1
      = .ok (lessonFree.likes.contains "u@x.com") lessonFree.likesCount :=
  (c6_toggle_like_involution dbMain 1 "u@x.com" lessonFree
    (by decide) (by decide)).2.2.1

/-! ## Claim C7: savedCount never negative, add/remove round trip -/

theorem band_right {a b : Bool} (h : (a && b) = true) : b = true := by
  simp at h
  exact h.2

/-- Claim C7: lessons are created with `savedCount = 0`; add-favorite
increments the target lesson's count by one; the remove-favorite
decrement only ever fires on a positive count, so non-negativity of
`savedCount` is preserved by both favorite operations; and an add
followed by a remove of the created favorite restores the lesson —
`savedCount` included — and the favorites collection exactly. -/
theorem c7_saved_count_invariant (db : DB) :
    (∀ body ce now nid l, l ∈ (createLesson db body ce now nid).2.lessons →
       l ∈ db.lessons ∨ l.savedCount = 0) ∧
    (∀ lidP email nid now, (∀ l ∈ db.lessons, 0 ≤ l.savedCount) →
       ∀ l ∈ (addFavorite db lidP email nid now).2.lessons, 0 ≤ l.savedCount) ∧
    (∀ idP email, (∀ l ∈ db.lessons, 0 ≤ l.savedCount) →
       ∀ l ∈ (removeFavorite db idP email).2.lessons, 0 ≤ l.savedCount) ∧
    (∀ lid email nid now lesson,
       db.favorites.find?
           (fun f => f.lessonId == lid && f.userEmail == email) = none →
       db.lessons.find? (fun l => l.id == lid) = some lesson →
       (addFavorite db (some lid) email nid now).2.lessons.find?
           (fun l => l.id == lid)
         = some { lesson with savedCount := lesson.savedCount + 1 }) ∧
    (∀ lid email nid now lesson,
       db.favorites.find?
           (fun f => f.lessonId == lid && f.userEmail == email) = none →
       (∀ f ∈ db.favorites, f.id ≠ nid) →
       db.lessons.find? (fun l => l.id == lid) = some lesson →
       0 ≤ lesson.savedCount →
       ((removeFavorite (addFavorite db (some lid) email nid now).2
           (some nid) email).2).lessons.find? (fun l => l.id == lid)
         = some lesson ∧
       ((removeFavorite (addFavorite db (some lid) email nid now).2
           (some nid) email).2).favorites = db.favorites) := by
  refine ⟨?_, ?_, ?_, ?_, ?_⟩
  · intro body ce now nid l hl
    cases hv : (!jsTruthy body.title || !jsTruthy body.shortDescription) with
    | true =>
        simp [createLesson, hv] at hl
        exact Or.inl hl
    | false =>
        simp [createLesson, hv] at hl
        rcases hl with hl | hl
        · exact Or.inl hl
        · right
          rw [hl]
  · intro lidP email nid now hpos l hl
    cases lidP with
    | none =>
        simp only [addFavorite] at hl
        exact hpos l hl
    | some lid =>
        cases hdup : db.favorites.find?
            (fun f => f.lessonId == lid && f.userEmail == email) with
        | some f =>
            simp [addFavorite, hdup] at hl
            exact hpos l hl
        | none =>
            simp only [addFavorite, hdup] at hl
            rcases mem_updateFirst hl with h | ⟨y, hy, _, rfl⟩
            · exact hpos l h
            · have hy0 := hpos y hy
              show 0 ≤ y.savedCount + 1
              omega
  · intro idP email hpos l hl
    cases idP with
    | none =>
        simp only [removeFavorite] at hl
        exact hpos l hl
    | some oid =>
        cases hf : db.favorites.find? (fun f => f.id == oid) with
        | none =>
            simp [removeFavorite, hf] at hl
            exact hpos l hl
        | some fav =>
            by_cases he : fav.userEmail ≠ email
            · simp [removeFavorite, hf, he] at hl
              exact hpos l hl
            · push_neg at he
              simp [removeFavorite, hf, he] at hl
              rcases mem_updateFirst hl with h | ⟨y, hy, hpy, rfl⟩
              · exact hpos l h
              · have h0 : decide (0 < y.savedCount) = true := band_right hpy
                have h0' : 0 < y.savedCount := by simpa using h0
                show 0 ≤ y.savedCount - 1
                omega
  · intro lid email nid now lesson hdup hlesson
    simp only [addFavorite, hdup]
    exact find?_updateFirst_of_pres hlesson
      (by simpa using List.find?_some hlesson)
  · intro lid email nid now lesson hdup hfresh hlesson hpos
    have hadd : (addFavorite db (some lid) email nid now).2
        = { db with
            favorites := db.favorites
              ++ [{ id := nid, lessonId := lid, userEmail := email,
                    createdAt := now }],
            lessons := updateFirst (fun l => l.id == lid)
              (fun l => { l with savedCount := l.savedCount + 1 })
              db.lessons } := by
      simp [addFavorite, hdup]
    have hffresh : ∀ y ∈ db.favorites,
        (fun f : Favorite => f.id == nid) y = false := by
      intro y hy
      simpa using hfresh y hy
    have hffind : (db.favorites
        ++ [({ id := nid, lessonId := lid, userEmail := email,
               createdAt := now } : Favorite)]).find? (fun f => f.id == nid)
        = some ({ id := nid, lessonId := lid, userEmail := email,
                  createdAt := now } : Favorite) := by
      rw [find?_append_left_none _ hffresh]
      simp [List.find?_cons]
    rcases find?_decomp hlesson with ⟨l₁, l₂, heq, hall⟩
    have hplesson : (lesson.id == lid) = true := by
      simpa using List.find?_some hlesson
    have hL1 : updateFirst (fun l => l.id == lid)
        (fun l => { l with savedCount := l.savedCount + 1 }) db.lessons
        = l₁ ++ { lesson with savedCount := lesson.savedCount + 1 } :: l₂ :=
      updateFirst_eq_of_find? heq hall hplesson
    have hall' : ∀ y ∈ l₁,
        (fun l : Lesson => l.id == lid && decide (0 < l.savedCount)) y
          = false := by
      intro y hy
      simp [hall y hy]
    have hp' : ((fun l : Lesson => l.id == lid && decide (0 < l.savedCount))
        { lesson with savedCount := lesson.savedCount + 1 }) = true := by
      simp [hplesson]
      omega
    have hL2 : updateFirst
        (fun l => l.id == lid && decide (0 < l.savedCount))
        (fun l => { l with savedCount := l.savedCount - 1 })
        (l₁ ++ { lesson with savedCount := lesson.savedCount + 1 } :: l₂)
        = l₁ ++ { lesson with savedCount := lesson.savedCount + 1 - 1 } :: l₂ :=
      updateFirst_eq_of_find? rfl hall' hp'
    have hcancel : { lesson with savedCount := lesson.savedCount + 1 - 1 }
        = lesson := by
      have h1 : lesson.savedCount + 1 - 1 = lesson.savedCount := by omega
      rw [h1]
    rw [hadd]
    constructor
    · simp only [removeFavorite, hffind]
      rw [if_neg (by simp)]
      simp only
      rw [hL1, hL2, hcancel, ← heq]
      exact hlesson
    · simp only [removeFavorite, hffind]
      rw [if_neg (by simp)]
      simp only
      rw [deleteFirst_append _ hffresh]
      simp [deleteFirst]

/-- Claim C7 witness: adding then removing a favorite for lesson 1
restores its document (savedCount included) and the favorites
collection. -/
theorem c7_saved_count_invariant_witness :
    ((removeFavorite (addFavorite dbMain (some 1) "w@x.com" 99 11).2
        (some 99) "w@x.com").2).lessons.find? (fun l => l.id == 1)
      = some lessonFree ∧
    ((removeFavorite (addFavorite dbMain (some 1) "w@x.com" 99 11).2
        (some 99) "w@x.com").2).favorites = dbMain.favorites :=
  (c7_saved_count_invariant dbMain).2.2.2.2 1 "w@x.com" 99 11 lessonFree
    (by decide) (by decide) (by decide) (by decide)

/-! ## Claim C8: update allow-list -/

theorem lookup_allow_filterMap (body : List (String × String)) (k : String)
    (L : List String) (hk : k ∉ L) :
    (L.filterMap (fun f => match body.lookup f with
      | some v => some (f, v)
      | none => none)).lookup k = none := by
  induction L with
  | nil => rfl
  | cons a as ih =>
      have hka : (k == a) = false := by
        simp only [beq_eq_false_iff_ne, ne_eq]
        intro hkk
        exact hk (by simp [hkk])
      have has : k ∉ as := fun hkk => hk (by simp [hkk])
      simp only [List.filterMap_cons]
      cases hb : body.lookup a with
      | none => exact ih has
      | some v =>
          simp only [List.lookup, hka]
          exact ih has

theorem buildSet_lookup_other (body : List (String × String)) (now k : String)
    (h1 : k ∉ allowedFields) (h2 : k ≠ "updatedAt") :
    (buildSet body now).lookup k = none := by
  have hka : (k == "updatedAt") = false := by
    simp only [beq_eq_false_iff_ne, ne_eq]
    exact h2
  simp only [buildSet, List.lookup, hka]
  exact lookup_allow_filterMap body k allowedFields h1

theorem buildSet_lookup_updatedAt (body : List (String × String))
    (now : String) :
    (buildSet body now).lookup "updatedAt" = some now := by
  simp [buildSet, List.lookup]

/-- Claim C8: the update path can only change the seven allow-listed
fields; it always sets `updatedAt`; every other key of the target
document — `creatorEmail`, `creatorName`, `creatorPhotoURL`, `likes`,
`likesCount`, `savedCount`, `isDeleted`, `isFeatured`, `isReviewed`,
`createdAt` included — keeps its value no matter what the request body
contains. -/
theorem c8_update_allow_list (docs : List LessonDoc) (oid : Nat)
    (body : List (String × String)) (now : String) (d : LessonDoc)
    (h : docs.find? (fun x => x.id == oid) = some d) :
    ((updateLesson docs (some oid) body now).2).find? (fun x => x.id == oid)
      = some { d with fields := applySet d.fields (buildSet body now) } ∧
    applySet d.fields (buildSet body now) "updatedAt" = some now ∧
    (∀ k, k ∉ allowedFields → k ≠ "updatedAt" →
       applySet d.fields (buildSet body now) k = d.fields k) ∧
    (∀ k, k ∈ ["creatorEmail", "creatorName", "creatorPhotoURL", "likes",
               "likesCount", "savedCount", "isDeleted", "isFeatured",
               "isReviewed", "createdAt"] →
       applySet d.fields (buildSet body now) k = d.fields k) := by
  have hother : ∀ k, k ∉ allowedFields → k ≠ "updatedAt" →
      applySet d.fields (buildSet body now) k = d.fields k := by
    intro k h1 h2
    simp only [applySet]
    rw [buildSet_lookup_other body now k h1 h2]
  refine ⟨?_, ?_, hother, ?_⟩
  · simp only [updateLesson]
    exact find?_updateFirst_of_pres h (by simpa using List.find?_some h)
  · simp only [applySet, buildSet_lookup_updatedAt]
  · intro k hk
    simp only [List.mem_cons, List.not_mem_nil, or_false] at hk
    rcases hk with rfl | rfl | rfl | rfl | rfl | rfl | rfl | rfl | rfl | rfl <;>
      exact hother _ (by decide) (by decide)

/-- Claim C8 witness: updating document 1 with a body that also carries
`creatorEmail` sets `updatedAt` but leaves `creatorEmail` untouched. -/
theorem c8_update_allow_list_witness :
    applySet docW.fields (buildSet bodyW "T9") "updatedAt" = some "T9" ∧
    applySet docW.fields (buildSet bodyW "T9") "creatorEmail"
      = docW.fields "creatorEmail" := by
  have h := c8_update_allow_list [docW] 1 bodyW "T9" docW (by rfl)
  exact ⟨h.2.1, h.2.2.2 "creatorEmail" (by decide)⟩
